import Mathlib

/-
  Shallow embedding of `src/rusticengine.cpp` (simple3dengine): a wireframe
  cube renderer with a flyable camera.  Floating-point arithmetic is modelled
  over the reals; the `static_cast<int>` truncation toward zero is modelled by
  `rtrunc`.  SDL itself is modelled only through the data the program feeds it
  (event lists in, line segments and log lines out), since the program treats
  it as an external black box.
-/

namespace RusticEngine

/-- The `struct Point3D` of the source (three float coordinates), over ℝ. -/
@[ext]
structure Point3D where
  x : ℝ
  y : ℝ
  z : ℝ

/-- The integer screen coordinate returned by `project` (SDL's point type). -/
@[ext]
structure SDL_Point where
  x : ℤ
  y : ℤ
deriving DecidableEq

/-- Truncation toward zero on a real value, modelling the C cast to int. -/
noncomputable def rtrunc (r : ℝ) : ℤ :=
  if 0 ≤ r then ⌊r⌋ else ⌈r⌉

/-- Source line 24: `xz = x * cosYaw - z * sinYaw`, with `(x, z)` the
camera-relative coordinates of lines 17-19. -/
noncomputable def yawX (p camera : Point3D) (yaw : ℝ) : ℝ :=
  (p.x - camera.x) * Real.cos yaw - (p.z - camera.z) * Real.sin yaw

/-- Source line 25: `zz = x * sinYaw + z * cosYaw`. -/
noncomputable def yawZ (p camera : Point3D) (yaw : ℝ) : ℝ :=
  (p.x - camera.x) * Real.sin yaw + (p.z - camera.z) * Real.cos yaw

/-- Source line 30: `yz = y * cosPitch - zz * sinPitch`. -/
noncomputable def pitchY (p camera : Point3D) (yaw pitch : ℝ) : ℝ :=
  (p.y - camera.y) * Real.cos pitch - yawZ p camera yaw * Real.sin pitch

/-- Source line 31: `zz2 = y * sinPitch + zz * cosPitch`. -/
noncomputable def pitchZ (p camera : Point3D) (yaw pitch : ℝ) : ℝ :=
  (p.y - camera.y) * Real.sin pitch + yawZ p camera yaw * Real.cos pitch

/-- The perspective-divide denominator `zz2 + fov` of source line 33. -/
noncomputable def projDenom (p : Point3D) (fov : ℝ) (camera : Point3D)
    (yaw pitch : ℝ) : ℝ :=
  pitchZ p camera yaw pitch + fov

/-- The `project` function of source lines 15-38: translate relative to the
camera, rotate by yaw then pitch, perspective divide by `zz2 + fov`,
truncate to integer pixel coordinates. -/
noncomputable def project (p : Point3D) (cx cy : ℤ) (fov : ℝ)
    (camera : Point3D) (yaw pitch : ℝ) : SDL_Point :=
  let factor := fov / (pitchZ p camera yaw pitch + fov)
  ⟨rtrunc ((cx : ℝ) + yawX p camera yaw * factor),
   rtrunc ((cy : ℝ) + pitchY p camera yaw pitch * factor)⟩

/-- Source line 88: `const float moveSpeed = 16.0f`. -/
noncomputable def moveSpeed : ℝ := 16

/-- Source line 89: `const float rotSpeed = 0.05f`. -/
noncomputable def rotSpeed : ℝ := 0.05

/-- Source line 65: `int cx = 1280 / 2`. -/
def screenCx : ℤ := 1280 / 2

/-- Source line 66: `int cy = 720 / 2`. -/
def screenCy : ℤ := 720 / 2

/-- Source line 67: `float fov = 500.0f`. -/
noncomputable def fov : ℝ := 500

/-- The eight cube vertices of `cube1` (source lines 75-84). -/
noncomputable def cube1 : List Point3D :=
  [⟨-100, -100, -100⟩, ⟨100, -100, -100⟩, ⟨100, 100, -100⟩, ⟨-100, 100, -100⟩,
   ⟨-100, -100, 100⟩, ⟨100, -100, 100⟩, ⟨100, 100, 100⟩, ⟨-100, 100, 100⟩]

/-- The ten recognized logical keys (source lines 92-94). -/
inductive Key where
  | w | a | s | d | q | e | left | right | up | down
deriving DecidableEq

/-- The ten boolean key-state flags (source lines 92-94). -/
@[ext]
structure Keys where
  w : Bool
  a : Bool
  s : Bool
  d : Bool
  q : Bool
  e : Bool
  left : Bool
  right : Bool
  up : Bool
  down : Bool
deriving DecidableEq

/-- An SDL event as the program distinguishes them: `SDL_QUIT`, a key
transition whose keysym is one of the ten recognized keys (`some k`) or an
unrecognized keysym (`none`), or any other event type. -/
inductive Event where
  | quit
  | key (pressed : Bool) (sym : Option Key)
  | other
deriving DecidableEq

/-- A line written to standard output by the event loop (source lines
100, 106-115). -/
inductive LogLine where
  | quitReceived
  | keyTransition (k : Key) (pressed : Bool)
deriving DecidableEq

/-- The state read and written by the event-polling loop: the `quit` flag,
the ten key flags, and the log emitted so far. -/
structure InputState where
  quit : Bool
  keys : Keys
  log : List LogLine
deriving DecidableEq

/-- Source lines 106-115: `key_w = pressed` and so on, one assignment per
recognized key. -/
def setKey (ks : Keys) (k : Key) (pressed : Bool) : Keys :=
  match k with
  | .w => { ks with w := pressed }
  | .a => { ks with a := pressed }
  | .s => { ks with s := pressed }
  | .d => { ks with d := pressed }
  | .q => { ks with q := pressed }
  | .e => { ks with e := pressed }
  | .left => { ks with left := pressed }
  | .right => { ks with right := pressed }
  | .up => { ks with up := pressed }
  | .down => { ks with down := pressed }

/-- Read one key's flag. -/
def keyFlag (ks : Keys) (k : Key) : Bool :=
  match k with
  | .w => ks.w
  | .a => ks.a
  | .s => ks.s
  | .d => ks.d
  | .q => ks.q
  | .e => ks.e
  | .left => ks.left
  | .right => ks.right
  | .up => ks.up
  | .down => ks.down

/-- The body of the `while (SDL_PollEvent(&e))` loop (source lines 99-117):
a quit event sets the quit flag and logs; a key event for a recognized key
sets that key's flag and logs; unrecognized keys and other events do
nothing. -/
def processEvent (st : InputState) (ev : Event) : InputState :=
  match ev with
  | .quit => { st with quit := true, log := st.log ++ [LogLine.quitReceived] }
  | .key pressed (some k) =>
      { st with keys := setKey st.keys k pressed,
                log := st.log ++ [LogLine.keyTransition k pressed] }
  | .key _ none => st
  | .other => st

/-- The whole poll loop (source lines 98-118): every pending event is
processed, in order, with no early exit. -/
def processEvents (evs : List Event) (st : InputState) : InputState :=
  evs.foldl processEvent st

/-- The log lines a single event writes to standard output (source lines
100 and 106-115): one line per quit event and per recognized key
transition, none for unrecognized keys or other events. -/
def eventLog (ev : Event) : List LogLine :=
  match ev with
  | .quit => [LogLine.quitReceived]
  | .key pressed (some k) => [LogLine.keyTransition k pressed]
  | .key _ none => []
  | .other => []

/-- Camera rotation (source lines 128-131): yaw and pitch change by
`rotSpeed` per held rotation key. -/
noncomputable def applyRotation (ks : Keys) (yaw pitch : ℝ) : ℝ × ℝ :=
  let yaw := if ks.left then yaw - rotSpeed else yaw
  let yaw := if ks.right then yaw + rotSpeed else yaw
  let pitch := if ks.up then pitch - rotSpeed else pitch
  let pitch := if ks.down then pitch + rotSpeed else pitch
  (yaw, pitch)

/-- Camera movement (source lines 134-151), evaluated at the yaw value in
scope at that point of the frame. -/
noncomputable def applyMovement (ks : Keys) (camera : Point3D) (yaw : ℝ) :
    Point3D :=
  let c := camera
  let c := if ks.a then
    { c with x := c.x - moveSpeed * Real.cos yaw,
             z := c.z + moveSpeed * Real.sin yaw } else c
  let c := if ks.d then
    { c with x := c.x + moveSpeed * Real.cos yaw,
             z := c.z - moveSpeed * Real.sin yaw } else c
  let c := if ks.w then
    { c with x := c.x + moveSpeed * Real.sin yaw,
             z := c.z + moveSpeed * Real.cos yaw } else c
  let c := if ks.s then
    { c with x := c.x - moveSpeed * Real.sin yaw,
             z := c.z - moveSpeed * Real.cos yaw } else c
  let c := if ks.q then { c with y := c.y - moveSpeed } else c
  let c := if ks.e then { c with y := c.y + moveSpeed } else c
  c

/-- One frame's camera update (source lines 128-151): rotation is applied
first, then movement reads the yaw that rotation just produced. -/
noncomputable def updateCamera (ks : Keys) (camera : Point3D)
    (yaw pitch : ℝ) : Point3D × ℝ × ℝ :=
  let rp := applyRotation ks yaw pitch
  (applyMovement ks camera rp.1, rp.1, rp.2)

/-- Iterating the camera update over `n` frames with a fixed held-key
state. -/
noncomputable def camFrames (ks : Keys) : Nat → Point3D × ℝ × ℝ → Point3D × ℝ × ℝ
  | 0, st => st
  | n + 1, st => camFrames ks n (updateCamera ks st.1 st.2.1 st.2.2)

/-- The twelve `SDL_RenderDrawLine` calls (source lines 165-177), as the
list of projected endpoint pairs, in call order: the literal transcription
of the draw step. -/
noncomputable def drawnSegments (cube : List Point3D) (cx cy : ℤ) (fv : ℝ)
    (camera : Point3D) (yaw pitch : ℝ) : List (SDL_Point × SDL_Point) :=
  let pr := fun i => project (cube.getD i ⟨0, 0, 0⟩) cx cy fv camera yaw pitch
  [(pr 0, pr 1), (pr 1, pr 2), (pr 2, pr 3), (pr 3, pr 0),
   (pr 4, pr 5), (pr 5, pr 6), (pr 6, pr 7), (pr 7, pr 4),
   (pr 0, pr 4), (pr 1, pr 5), (pr 2, pr 6), (pr 3, pr 7)]

/-- The vertex-index pairs connected by the twelve draw calls, in call
order. -/
def edgeTable : List (Nat × Nat) :=
  [(0, 1), (1, 2), (2, 3), (3, 0),
   (4, 5), (5, 6), (6, 7), (7, 4),
   (0, 4), (1, 5), (2, 6), (3, 7)]

/-- All mutable state of the main loop: the quit flag, the key flags, the
camera pose, the cube vertex vector (`std::vector<Point3D> cube1`), and the
log emitted so far. -/
structure EngineState where
  quit : Bool
  keys : Keys
  camera : Point3D
  yaw : ℝ
  pitch : ℝ
  cube : List Point3D
  log : List LogLine

/-- One iteration of the `while (!quit)` loop (source lines 96-181): drain
the event queue, update the camera pose (rotation before movement), then
clear, project the eight vertices, draw the twelve edges and present.  The
returned segment list is the frame's draw output. -/
noncomputable def frame (events : List Event) (s : EngineState) :
    EngineState × List (SDL_Point × SDL_Point) :=
  let is := processEvents events ⟨s.quit, s.keys, s.log⟩
  let rp := applyRotation is.keys s.yaw s.pitch
  let cam := applyMovement is.keys s.camera rp.1
  let segs := drawnSegments s.cube screenCx screenCy fov cam rp.1 rp.2
  ({ s with quit := is.quit, keys := is.keys, log := is.log,
            camera := cam, yaw := rp.1, pitch := rp.2 }, segs)

/-- The main loop, fuel-bounded: `run fuel streams s` runs up to `fuel`
iterations, the i-th iteration polling the i-th event list of `streams`.
Returns the draw output of each completed frame, the final state, and
whether the loop reached its exit condition (`quit` observed true at the
top of an iteration) within the fuel. -/
noncomputable def run : Nat → List (List Event) → EngineState →
    List (List (SDL_Point × SDL_Point)) × EngineState × Bool
  | 0, _, s => ([], s, false)
  | n + 1, streams, s =>
    if s.quit then ([], s, true)
    else
      let r := frame (streams.headD []) s
      let rest := run n streams.tail r.1
      (r.2 :: rest.1, rest.2.1, rest.2.2)

/-- All ten key flags start false (source lines 92-94). -/
def initKeys : Keys :=
  ⟨false, false, false, false, false, false, false, false, false, false⟩

/-- The state of the main loop on entry: camera at the origin, zero yaw and
pitch, no key held, quit false, the cube vertices, empty log
(source lines 70-94). -/
noncomputable def initState : EngineState :=
  { quit := false, keys := initKeys, camera := ⟨0, 0, 0⟩,
    yaw := 0, pitch := 0, cube := cube1, log := [] }

/-- The three distinct error messages written to standard error on
initialization failure (source lines 42, 52, 59). -/
inductive ErrMsg where
  | sdlInitFailed
  | windowFailed
  | rendererFailed
deriving DecidableEq

/-- The startup sequence (source lines 41-63): SDL initialization, window
creation, renderer creation; the first failure aborts with its message. -/
def initPhase (sdlOk windowOk rendererOk : Bool) : Except ErrMsg Unit :=
  if !sdlOk then .error .sdlInitFailed
  else if !windowOk then .error .windowFailed
  else if !rendererOk then .error .rendererFailed
  else .ok ()

/-- `main` (source lines 40-187): on any initialization failure, write its
message to standard error and exit 1; otherwise run the loop and exit 0
once the loop terminates.  `none` means the loop was still running when the
fuel ran out (the real program has not exited yet). -/
noncomputable def mainRun (sdlOk windowOk rendererOk : Bool) (fuel : Nat)
    (streams : List (List Event)) : Option (Nat × List ErrMsg) :=
  match initPhase sdlOk windowOk rendererOk with
  | .error m => some (1, [m])
  | .ok _ =>
    let r := run fuel streams initState
    if r.2.2 then some (0, []) else none

/-! ### Helper lemmas -/

/-- Truncation of an integer value is that integer. -/
theorem rtrunc_intCast (n : ℤ) : rtrunc (n : ℝ) = n := by
  unfold rtrunc
  split <;> simp

/-- With yaw = pitch = 0 both rotations are the identity and `project`
reduces to the translated perspective formula. -/
theorem project_zero_angles (p camera : Point3D) (cx cy : ℤ) (fv : ℝ) :
    project p cx cy fv camera 0 0 =
      ⟨rtrunc ((cx : ℝ) + (p.x - camera.x) * (fv / ((p.z - camera.z) + fv))),
       rtrunc ((cy : ℝ) + (p.y - camera.y) * (fv / ((p.z - camera.z) + fv)))⟩ := by
  simp [project, yawX, yawZ, pitchY, pitchZ]

/-! ### Claims about the projection function -/

/-- Claim C3: with yaw = 0 and pitch = 0 the projection returns exactly
`center + (P.x - C.x, P.y - C.y) * fov / ((P.z - C.z) + fov)`, each
coordinate truncated to integer; in particular with the camera at the
origin, fov = 500 and screen center (640, 360), the point (0, 0, 500)
projects exactly to (640, 360). -/
theorem C3_closed_form_zero_angles :
    (∀ (p camera : Point3D) (cx cy : ℤ) (fv : ℝ),
      project p cx cy fv camera 0 0 =
        ⟨rtrunc ((cx : ℝ) + (p.x - camera.x) * (fv / ((p.z - camera.z) + fv))),
         rtrunc ((cy : ℝ) + (p.y - camera.y) * (fv / ((p.z - camera.z) + fv)))⟩)
    ∧ project ⟨0, 0, 500⟩ 640 360 500 ⟨0, 0, 0⟩ 0 0 = ⟨640, 360⟩ := by
  refine ⟨project_zero_angles, ?_⟩
  rw [project_zero_angles]
  have hx : ((640 : ℤ) : ℝ) + ((0 : ℝ) - 0) * (500 / (((500 : ℝ) - 0) + 500))
      = ((640 : ℤ) : ℝ) := by norm_num
  have hy : ((360 : ℤ) : ℝ) + ((0 : ℝ) - 0) * (500 / (((500 : ℝ) - 0) + 500))
      = ((360 : ℤ) : ℝ) := by norm_num
  show SDL_Point.mk _ _ = _
  rw [show ((⟨0, 0, 500⟩ : Point3D).x - (⟨0, 0, 0⟩ : Point3D).x) = ((0 : ℝ) - 0)
        from rfl]
  rw [show ((⟨0, 0, 500⟩ : Point3D).y - (⟨0, 0, 0⟩ : Point3D).y) = ((0 : ℝ) - 0)
        from rfl]
  rw [show ((⟨0, 0, 500⟩ : Point3D).z - (⟨0, 0, 0⟩ : Point3D).z) = ((500 : ℝ) - 0)
        from rfl]
  rw [hx, hy, rtrunc_intCast, rtrunc_intCast]

/-- Claim C4: the perspective divide is unguarded — there are inputs on
which the denominator `zz2 + fov` is exactly zero; on every input the
function just evaluates the divide formula (no clipping, no rejection);
and a point behind the camera still produces a projected coordinate. -/
theorem C4_unguarded_divide :
    (∃ (p : Point3D) (fv : ℝ) (camera : Point3D) (yaw pitch : ℝ),
        projDenom p fv camera yaw pitch = 0)
    ∧ (∀ (p : Point3D) (cx cy : ℤ) (fv : ℝ) (camera : Point3D) (yaw pitch : ℝ),
        project p cx cy fv camera yaw pitch =
          ⟨rtrunc ((cx : ℝ) + yawX p camera yaw
              * (fv / projDenom p fv camera yaw pitch)),
           rtrunc ((cy : ℝ) + pitchY p camera yaw pitch
              * (fv / projDenom p fv camera yaw pitch))⟩)
    ∧ project ⟨0, 0, -100⟩ 640 360 500 ⟨0, 0, 0⟩ 0 0 = ⟨640, 360⟩ := by
  refine ⟨⟨⟨0, 0, -500⟩, 500, ⟨0, 0, 0⟩, 0, 0, ?_⟩,
    fun p cx cy fv camera yaw pitch => rfl, ?_⟩
  · simp [projDenom, pitchZ, yawZ]
  · rw [project_zero_angles]
    have hx : ((640 : ℤ) : ℝ) + ((0 : ℝ) - 0) * (500 / (((-100 : ℝ) - 0) + 500))
        = ((640 : ℤ) : ℝ) := by norm_num
    have hy : ((360 : ℤ) : ℝ) + ((0 : ℝ) - 0) * (500 / (((-100 : ℝ) - 0) + 500))
        = ((360 : ℤ) : ℝ) := by norm_num
    show SDL_Point.mk _ _ = _
    rw [show ((⟨0, 0, -100⟩ : Point3D).x - (⟨0, 0, 0⟩ : Point3D).x)
          = ((0 : ℝ) - 0) from rfl]
    rw [show ((⟨0, 0, -100⟩ : Point3D).y - (⟨0, 0, 0⟩ : Point3D).y)
          = ((0 : ℝ) - 0) from rfl]
    rw [show ((⟨0, 0, -100⟩ : Point3D).z - (⟨0, 0, 0⟩ : Point3D).z)
          = ((-100 : ℝ) - 0) from rfl]
    rw [hx, hy, rtrunc_intCast, rtrunc_intCast]

/-- Claim C8: for a fixed point, camera, fov and screen center, adding 2π
to the yaw (or to the pitch) leaves the projected coordinates unchanged
(in the real-valued model the equality is exact, hence within any
floating-point tolerance). -/
theorem C8_angle_periodicity :
    ∀ (p : Point3D) (cx cy : ℤ) (fv : ℝ) (camera : Point3D) (yaw pitch : ℝ),
      project p cx cy fv camera (yaw + 2 * Real.pi) pitch
          = project p cx cy fv camera yaw pitch
      ∧ project p cx cy fv camera yaw (pitch + 2 * Real.pi)
          = project p cx cy fv camera yaw pitch := by
  intro p cx cy fv camera yaw pitch
  constructor <;>
    simp [project, yawX, yawZ, pitchY, pitchZ,
      Real.cos_add_two_pi, Real.sin_add_two_pi]

/-- Claim C10: projecting the camera's own position yields exactly the
screen center, for every camera, yaw, pitch, center and nonzero fov. -/
theorem C10_self_projection_center :
    ∀ (camera : Point3D) (cx cy : ℤ) (fv yaw pitch : ℝ), fv ≠ 0 →
      project camera cx cy fv camera yaw pitch = ⟨cx, cy⟩ := by
  intro camera cx cy fv yaw pitch _
  simp [project, yawX, yawZ, pitchY, pitchZ, rtrunc_intCast]

/-- Witness for C10 at a concrete camera, pose and fov. -/
theorem C10_self_projection_center_witness :
    (500 : ℝ) ≠ 0
    ∧ project ⟨1, 2, 3⟩ 640 360 500 ⟨1, 2, 3⟩ 0.3 0.7 = ⟨640, 360⟩ :=
  ⟨by norm_num,
   C10_self_projection_center ⟨1, 2, 3⟩ 640 360 500 0.3 0.7 (by norm_num)⟩

/-! ### Event-loop lemmas -/

/-- Processing a concatenation processes the two halves in sequence. -/
theorem processEvents_append (l₁ l₂ : List Event) (st : InputState) :
    processEvents (l₁ ++ l₂) st = processEvents l₂ (processEvents l₁ st) := by
  simp [processEvents]

/-- One event's effect on the key flags depends only on the key flags. -/
theorem processEvent_keys_eq (ev : Event) {st₁ st₂ : InputState}
    (h : st₁.keys = st₂.keys) :
    (processEvent st₁ ev).keys = (processEvent st₂ ev).keys := by
  cases ev with
  | quit => simpa [processEvent] using h
  | key pressed sym => cases sym <;> simp [processEvent, h]
  | other => simpa [processEvent] using h

/-- The whole poll's effect on the key flags depends only on the key
flags. -/
theorem processEvents_keys_eq (l : List Event) :
    ∀ {st₁ st₂ : InputState}, st₁.keys = st₂.keys →
      (processEvents l st₁).keys = (processEvents l st₂).keys := by
  induction l with
  | nil => intro st₁ st₂ h; simpa [processEvents] using h
  | cons ev t ih =>
      intro st₁ st₂ h
      simp only [processEvents, List.foldl_cons]
      exact ih (processEvent_keys_eq ev h)

/-- One event appends to the log exactly the lines it prints, independent
of the state it is processed in. -/
theorem processEvent_log (st : InputState) (ev : Event) :
    (processEvent st ev).log = st.log ++ eventLog ev := by
  cases ev with
  | quit => rfl
  | key pressed sym => cases sym <;> simp [processEvent, eventLog]
  | other => simp [processEvent, eventLog]

/-- The poll loop appends to the log exactly each event's lines, in event
order. -/
theorem processEvents_log :
    ∀ (l : List Event) (st : InputState),
      (processEvents l st).log = st.log ++ (l.map eventLog).flatten := by
  intro l
  induction l with
  | nil => intro st; simp [processEvents]
  | cons ev t ih =>
      intro st
      show (processEvents t (processEvent st ev)).log = _
      rw [ih, processEvent_log]
      simp

/-- No event ever clears the quit flag. -/
theorem processEvent_quit_mono (ev : Event) {st : InputState}
    (h : st.quit = true) : (processEvent st ev).quit = true := by
  cases ev with
  | quit => simp [processEvent]
  | key pressed sym => cases sym <;> simp [processEvent, h]
  | other => simpa [processEvent] using h

/-- The poll loop never clears the quit flag. -/
theorem processEvents_quit_mono (l : List Event) :
    ∀ {st : InputState}, st.quit = true → (processEvents l st).quit = true := by
  induction l with
  | nil => intro st h; simpa [processEvents] using h
  | cons ev t ih =>
      intro st h
      simp only [processEvents, List.foldl_cons]
      exact ih (processEvent_quit_mono ev h)

/-- If a quit event occurs anywhere in the poll, the quit flag ends up
set. -/
theorem processEvents_quit_of_mem :
    ∀ (l : List Event), Event.quit ∈ l →
      ∀ st, (processEvents l st).quit = true := by
  intro l
  induction l with
  | nil => intro h; cases h
  | cons ev t ih =>
      intro h st
      simp only [processEvents, List.foldl_cons]
      by_cases he : ev = Event.quit
      · subst he
        exact processEvents_quit_mono t (by simp [processEvent])
      · have ht : Event.quit ∈ t := by
          rcases List.mem_cons.mp h with h1 | h2
          · exact absurd h1.symm he
          · exact h2
        exact ih ht (processEvent st ev)

/-- A frame whose poll contains a quit event ends with the quit flag set. -/
theorem frame_quit_of_mem {evs : List Event} (s : EngineState)
    (hm : Event.quit ∈ evs) : (frame evs s).1.quit = true :=
  processEvents_quit_of_mem evs hm ⟨s.quit, s.keys, s.log⟩

/-- A frame whose poll contains a quit event is the last: the loop renders
exactly that one more frame and then stops. -/
theorem run_quit_first_frame (evs : List Event) (rest : List (List Event))
    (s : EngineState) (n : Nat) (hq : s.quit = false)
    (hm : Event.quit ∈ evs) :
    run (n + 2) (evs :: rest) s
      = ([(frame evs s).2], (frame evs s).1, true) := by
  have h1 : (frame evs s).1.quit = true := frame_quit_of_mem s hm
  simp [run, hq, h1]

/-! ### Claims about the event loop and frame loop -/

/-- Claim C2 (counterexample): after a quit event mid-poll, a later key
event in the same poll IS still processed — it sets the key's flag and
emits a log line, contrary to the claim. -/
theorem C2_counterexample :
    (processEvents [Event.quit, Event.key true (some Key.w)]
        ⟨false, initKeys, []⟩).keys.w = true
    ∧ (processEvents [Event.quit, Event.key true (some Key.w)]
        ⟨false, initKeys, []⟩).log
      = [LogLine.quitReceived, LogLine.keyTransition Key.w true] :=
  ⟨rfl, rfl⟩

/-- Claim C2 (amended): after a quit event mid-poll the remaining events of
that poll are still processed exactly as if the quit event were absent —
the final key flags equal those of the stream with the quit event deleted,
and the log is the pre-quit events' lines, then the single quit line, then
exactly the lines the post-quit events emit in the quit-deleted stream —
the quit flag is set, the frame still completes its full draw cycle (all
12 edges), and the loop terminates right after that iteration, rendering
no further frame. -/
theorem C2_quit_midpoll_frame_completes (pre post : List Event)
    (s : EngineState) (n : Nat) (rest : List (List Event))
    (hq : s.quit = false) :
    ((processEvents (pre ++ Event.quit :: post) ⟨s.quit, s.keys, s.log⟩).keys
        = (processEvents (pre ++ post) ⟨s.quit, s.keys, s.log⟩).keys)
    ∧ (processEvents (pre ++ Event.quit :: post) ⟨s.quit, s.keys, s.log⟩).log
        = (processEvents pre ⟨s.quit, s.keys, s.log⟩).log
          ++ [LogLine.quitReceived] ++ (post.map eventLog).flatten
    ∧ (processEvents (pre ++ post) ⟨s.quit, s.keys, s.log⟩).log
        = (processEvents pre ⟨s.quit, s.keys, s.log⟩).log
          ++ (post.map eventLog).flatten
    ∧ (processEvents (pre ++ Event.quit :: post)
        ⟨s.quit, s.keys, s.log⟩).quit = true
    ∧ (frame (pre ++ Event.quit :: post) s).2.length = 12
    ∧ run (n + 2) ((pre ++ Event.quit :: post) :: rest) s
        = ([(frame (pre ++ Event.quit :: post) s).2],
           (frame (pre ++ Event.quit :: post) s).1, true) := by
  refine ⟨?_, ?_, ?_, ?_, ?_, ?_⟩
  · have hsplit : pre ++ Event.quit :: post = (pre ++ [Event.quit]) ++ post := by
      simp
    rw [hsplit, processEvents_append, processEvents_append,
      processEvents_append]
    exact processEvents_keys_eq post rfl
  · rw [processEvents_log, processEvents_log]
    simp [eventLog]
  · rw [processEvents_log, processEvents_log]
    simp
  · exact processEvents_quit_of_mem _ (by simp) _
  · rfl
  · exact run_quit_first_frame _ rest s n hq (by simp)

/-- Witness for the amended C2 at a concrete state and event stream. -/
theorem C2_quit_midpoll_frame_completes_witness :
    initState.quit = false
    ∧ (((processEvents ([] ++ Event.quit :: [Event.key true (some Key.w)])
          ⟨initState.quit, initState.keys, initState.log⟩).keys
        = (processEvents ([] ++ [Event.key true (some Key.w)])
          ⟨initState.quit, initState.keys, initState.log⟩).keys)
      ∧ (processEvents ([] ++ Event.quit :: [Event.key true (some Key.w)])
          ⟨initState.quit, initState.keys, initState.log⟩).log
        = (processEvents []
            ⟨initState.quit, initState.keys, initState.log⟩).log
          ++ [LogLine.quitReceived]
          ++ (([Event.key true (some Key.w)]).map eventLog).flatten
      ∧ (processEvents ([] ++ [Event.key true (some Key.w)])
          ⟨initState.quit, initState.keys, initState.log⟩).log
        = (processEvents []
            ⟨initState.quit, initState.keys, initState.log⟩).log
          ++ (([Event.key true (some Key.w)]).map eventLog).flatten
      ∧ (processEvents ([] ++ Event.quit :: [Event.key true (some Key.w)])
          ⟨initState.quit, initState.keys, initState.log⟩).quit = true
      ∧ (frame ([] ++ Event.quit :: [Event.key true (some Key.w)])
          initState).2.length = 12
      ∧ run (0 + 2) (([] ++ Event.quit :: [Event.key true (some Key.w)]) :: [])
            initState
          = ([(frame ([] ++ Event.quit :: [Event.key true (some Key.w)])
               initState).2],
             (frame ([] ++ Event.quit :: [Event.key true (some Key.w)])
               initState).1, true)) :=
  ⟨rfl, C2_quit_midpoll_frame_completes [] [Event.key true (some Key.w)]
    initState 0 [] rfl⟩

/-- Claim C9: pressing then releasing any recognized key twice leaves its
flag false and logs exactly pressed, released, pressed, released, in
order; every recognized transition emits exactly one log line and sets the
flag to the transition; unrecognized key events change nothing and emit
nothing. -/
theorem C9_key_toggle_log :
    ∀ (k : Key) (st : InputState),
      keyFlag (processEvents
          [Event.key true (some k), Event.key false (some k),
           Event.key true (some k), Event.key false (some k)] st).keys k
        = false
      ∧ (processEvents
          [Event.key true (some k), Event.key false (some k),
           Event.key true (some k), Event.key false (some k)] st).log
        = st.log ++ [LogLine.keyTransition k true, LogLine.keyTransition k false,
                     LogLine.keyTransition k true, LogLine.keyTransition k false]
      ∧ (∀ (pressed : Bool) (k' : Key) (st' : InputState),
          (processEvent st' (Event.key pressed (some k'))).log
            = st'.log ++ [LogLine.keyTransition k' pressed]
          ∧ keyFlag (processEvent st' (Event.key pressed (some k'))).keys k'
            = pressed)
      ∧ (∀ (pressed : Bool) (st' : InputState),
          processEvent st' (Event.key pressed none) = st') := by
  intro k st
  refine ⟨?_, ?_, ?_, ?_⟩
  · cases k <;> rfl
  · simp [processEvents, processEvent]
  · intro pressed k' st'
    exact ⟨by simp [processEvent], by cases k' <;> rfl⟩
  · intro pressed st'
    rfl

/-! ### Claims about the camera update -/

/-- The key state with only the forward key (W) held. -/
def ksForward : Keys :=
  ⟨true, false, false, false, false, false, false, false, false, false⟩

/-- The key state with the forward key (W) and the yaw-left key (LEFT)
held. -/
def ksForwardYawLeft : Keys :=
  ⟨true, false, false, false, false, false, true, false, false, false⟩

/-- The sine of `rotSpeed` is strictly positive. -/
theorem sin_rotSpeed_pos : 0 < Real.sin rotSpeed := by
  apply Real.sin_pos_of_pos_of_lt_pi
  · rw [rotSpeed]; norm_num
  · calc rotSpeed < 3 := by rw [rotSpeed]; norm_num
      _ < Real.pi := Real.pi_gt_three

/-- With forward and yaw-left held, the frame rotates first and then
translates along the already-rotated yaw. -/
theorem updateCamera_forward_yawLeft (camera : Point3D) (yaw pitch : ℝ) :
    updateCamera ksForwardYawLeft camera yaw pitch
      = (⟨camera.x + moveSpeed * Real.sin (yaw - rotSpeed), camera.y,
          camera.z + moveSpeed * Real.cos (yaw - rotSpeed)⟩,
         yaw - rotSpeed, pitch) := by
  simp [updateCamera, applyRotation, applyMovement, ksForwardYawLeft]

/-- Claim C1 (counterexample): from yaw = 0 with forward and yaw-left both
held, the claim predicts an X translation delta of
`moveSpeed * sin 0 = 0` (computed from the frame-start yaw), but the frame
moves the camera's X coordinate — the delta is taken at the already-updated
yaw. -/
theorem C1_counterexample :
    (updateCamera ksForwardYawLeft ⟨0, 0, 0⟩ 0 0).1.x
      ≠ (⟨0, 0, 0⟩ : Point3D).x + moveSpeed * Real.sin 0 := by
  rw [updateCamera_forward_yawLeft]
  show (0 : ℝ) + moveSpeed * Real.sin (0 - rotSpeed) ≠ 0 + moveSpeed * Real.sin 0
  have hs : Real.sin ((0 : ℝ) - rotSpeed) = -Real.sin rotSpeed := by
    rw [zero_sub, Real.sin_neg]
  rw [hs, Real.sin_zero]
  have h16 : (0 : ℝ) < moveSpeed := by rw [moveSpeed]; norm_num
  have := sin_rotSpeed_pos
  intro h
  nlinarith

/-- Claim C1 (amended): when forward and yaw-left are both held, one frame
changes both the yaw and the camera position, but the two deltas are
sequential, not independent: rotation is applied first and the translation
delta is computed from the yaw already updated by that frame's rotation
step (`yaw - rotSpeed`). -/
theorem C1_rotation_before_translation (camera : Point3D) (yaw pitch : ℝ) :
    updateCamera ksForwardYawLeft camera yaw pitch
      = (⟨camera.x + moveSpeed * Real.sin (yaw - rotSpeed), camera.y,
          camera.z + moveSpeed * Real.cos (yaw - rotSpeed)⟩,
         yaw - rotSpeed, pitch)
    ∧ (updateCamera ksForwardYawLeft camera yaw pitch).2.1 ≠ yaw
    ∧ (updateCamera ksForwardYawLeft camera yaw pitch).1 ≠ camera := by
  refine ⟨updateCamera_forward_yawLeft camera yaw pitch, ?_, ?_⟩
  · rw [updateCamera_forward_yawLeft]
    show yaw - rotSpeed ≠ yaw
    have : rotSpeed ≠ 0 := by rw [rotSpeed]; norm_num
    simpa [sub_eq_self] using this
  · rw [updateCamera_forward_yawLeft]
    show Point3D.mk _ _ _ ≠ camera
    intro h
    have hx := congrArg Point3D.x h
    have hz := congrArg Point3D.z h
    simp only at hx hz
    have h16 : moveSpeed ≠ 0 := by rw [moveSpeed]; norm_num
    have hsin : Real.sin (yaw - rotSpeed) = 0 := by
      have := sub_eq_zero_of_eq hx
      have h0 : moveSpeed * Real.sin (yaw - rotSpeed) = 0 := by linarith
      rcases mul_eq_zero.mp h0 with h' | h'
      · exact absurd h' h16
      · exact h'
    have hcos : Real.cos (yaw - rotSpeed) = 0 := by
      have h0 : moveSpeed * Real.cos (yaw - rotSpeed) = 0 := by linarith
      rcases mul_eq_zero.mp h0 with h' | h'
      · exact absurd h' h16
      · exact h'
    have hpyth := Real.sin_sq_add_cos_sq (yaw - rotSpeed)
    rw [hsin, hcos] at hpyth
    norm_num at hpyth

/-- Witness for the amended C1 at a concrete camera pose. -/
theorem C1_rotation_before_translation_witness :
    updateCamera ksForwardYawLeft ⟨0, 0, 0⟩ 0 0
      = (⟨(⟨0, 0, 0⟩ : Point3D).x + moveSpeed * Real.sin (0 - rotSpeed),
          (⟨0, 0, 0⟩ : Point3D).y,
          (⟨0, 0, 0⟩ : Point3D).z + moveSpeed * Real.cos (0 - rotSpeed)⟩,
         (0 : ℝ) - rotSpeed, 0)
    ∧ (updateCamera ksForwardYawLeft ⟨0, 0, 0⟩ 0 0).2.1 ≠ 0
    ∧ (updateCamera ksForwardYawLeft ⟨0, 0, 0⟩ 0 0).1 ≠ ⟨0, 0, 0⟩ :=
  C1_rotation_before_translation ⟨0, 0, 0⟩ 0 0

/-- With only the forward key held and yaw = 0, one frame moves the camera
16 units along +Z and changes nothing else. -/
theorem updateCamera_forward_only (c : Point3D) :
    updateCamera ksForward c 0 0 = (⟨c.x, c.y, c.z + moveSpeed⟩, 0, 0) := by
  simp [updateCamera, applyRotation, applyMovement, ksForward]

/-- Claim C5: holding only the forward key for N frames from any camera
position with yaw = 0 and pitch = 0 increases Z by exactly N * 16 and
leaves X, Y, yaw and pitch unchanged. -/
theorem C5_forward_n_frames :
    ∀ (N : Nat) (c : Point3D),
      camFrames ksForward N (c, 0, 0)
        = (⟨c.x, c.y, c.z + (N : ℝ) * moveSpeed⟩, 0, 0) := by
  intro N
  induction N with
  | zero =>
      intro c
      simp [camFrames]
  | succ n ih =>
      intro c
      have hstep : camFrames ksForward (n + 1) (c, 0, 0)
          = camFrames ksForward n (⟨c.x, c.y, c.z + moveSpeed⟩, 0, 0) := by
        show camFrames ksForward n (updateCamera ksForward c 0 0) = _
        rw [updateCamera_forward_only]
      rw [hstep, ih]
      refine Prod.ext ?_ rfl
      show Point3D.mk _ _ _ = Point3D.mk _ _ _
      refine Point3D.ext rfl rfl ?_
      show c.z + moveSpeed + (n : ℝ) * moveSpeed = c.z + ((n : ℕ) + 1 : ℕ) * moveSpeed
      push_cast
      ring

/-! ### Claims about the draw step and process exit -/

/-- Claim C6: every frame draws exactly 12 line segments, connecting
exactly the fixed vertex-index pairs (0,1)(1,2)(2,3)(3,0)(4,5)(5,6)(6,7)
(7,4)(0,4)(1,5)(2,6)(3,7) of the projected vertices — no duplicate, no
missing edge — regardless of camera pose, and a frame never modifies the
cube's vertex list. -/
theorem C6_edge_table :
    ∀ (cx cy : ℤ) (fv : ℝ) (camera : Point3D) (yaw pitch : ℝ)
      (evs : List Event) (s : EngineState),
      (drawnSegments cube1 cx cy fv camera yaw pitch).length = 12
      ∧ drawnSegments cube1 cx cy fv camera yaw pitch
          = edgeTable.map (fun e =>
              (project (cube1.getD e.1 ⟨0, 0, 0⟩) cx cy fv camera yaw pitch,
               project (cube1.getD e.2 ⟨0, 0, 0⟩) cx cy fv camera yaw pitch))
      ∧ edgeTable = [(0, 1), (1, 2), (2, 3), (3, 0), (4, 5), (5, 6), (6, 7),
          (7, 4), (0, 4), (1, 5), (2, 6), (3, 7)]
      ∧ edgeTable.Nodup
      ∧ (frame evs s).1.cube = s.cube := by
  intro cx cy fv camera yaw pitch evs s
  exact ⟨rfl, rfl, rfl, by decide, rfl⟩

/-- Claim C7: the process exits 0 on a clean quit; it exits 1 exactly when
SDL initialization, window creation or renderer creation fails, and each
failure case writes its own error message before returning 1. -/
theorem C7_exit_codes (sdlOk windowOk rendererOk : Bool) :
    (∀ (fuel : Nat) (streams : List (List Event)),
      ((∃ m, mainRun sdlOk windowOk rendererOk fuel streams = some (1, [m]))
        ↔ (sdlOk = false ∨ windowOk = false ∨ rendererOk = false)))
    ∧ (sdlOk = false → ∀ (fuel : Nat) (streams : List (List Event)),
        mainRun sdlOk windowOk rendererOk fuel streams
          = some (1, [ErrMsg.sdlInitFailed]))
    ∧ (sdlOk = true → windowOk = false →
        ∀ (fuel : Nat) (streams : List (List Event)),
          mainRun sdlOk windowOk rendererOk fuel streams
            = some (1, [ErrMsg.windowFailed]))
    ∧ (sdlOk = true → windowOk = true → rendererOk = false →
        ∀ (fuel : Nat) (streams : List (List Event)),
          mainRun sdlOk windowOk rendererOk fuel streams
            = some (1, [ErrMsg.rendererFailed]))
    ∧ (sdlOk = true → windowOk = true → rendererOk = true →
        ∀ (evs : List Event) (rest : List (List Event)) (n : Nat),
          Event.quit ∈ evs →
          mainRun sdlOk windowOk rendererOk (n + 2) (evs :: rest)
            = some (0, [])) := by
  refine ⟨?_, ?_, ?_, ?_, ?_⟩
  · intro fuel streams
    cases sdlOk <;> cases windowOk <;> cases rendererOk <;>
      simp [mainRun, initPhase]
  · intro h fuel streams
    subst h
    simp [mainRun, initPhase]
  · intro h1 h2 fuel streams
    subst h1; subst h2
    simp [mainRun, initPhase]
  · intro h1 h2 h3 fuel streams
    subst h1; subst h2; subst h3
    simp [mainRun, initPhase]
  · intro h1 h2 h3 evs rest n hm
    subst h1; subst h2; subst h3
    have hrun := run_quit_first_frame evs rest initState n rfl hm
    simp [mainRun, initPhase, hrun]

/-- Witness for C7: a clean quit in the first frame exits 0, and a failed
SDL initialization exits 1 with its message. -/
theorem C7_exit_codes_witness :
    Event.quit ∈ [Event.quit]
    ∧ mainRun true true true (0 + 2) [[Event.quit]] = some (0, [])
    ∧ mainRun false true true 1 [] = some (1, [ErrMsg.sdlInitFailed]) :=
  ⟨by decide,
   (C7_exit_codes true true true).2.2.2.2 rfl rfl rfl [Event.quit] [] 0
     (by decide),
   (C7_exit_codes false true true).2.1 rfl 1 []⟩

end RusticEngine
